import Mathlib

set_option maxRecDepth 40000

/-
Verification development for the Halo-Vision firmware core:
 * the fixed-capacity ring buffer (src/software/firmware/{brain,display}_module/src/util/ring_buffer.c;
   the two files are line-for-line equivalent in the operations modelled here),
 * the NMEA sentence framer/parser (brain_module/src/drivers/gps_driver.c),
 * the telemetry line framer/parser (display_module/src/drivers/ble_rx.c).

Bytes are modelled as Nat (uint8_t values are 0..255; the framers do no
arithmetic on data bytes other than the 8-bit XOR, which is modelled
explicitly).  C strings are modelled as the list of their bytes; the
modelled libc string functions stop at a 0 byte exactly as the C ones do.
-/

/-- Byte list of a Lean string literal (ASCII). -/
def strBytes (s : String) : List Nat := s.data.map Char.toNat

/-- Exclusive or of one bit, as arithmetic. -/
def xorBit (x y : Nat) : Nat := (x + y) % 2

/-- Bitwise XOR over a fixed number of bits. -/
def bxorGo : Nat → Nat → Nat → Nat
  | 0, _, _ => 0
  | fuel + 1, a, b => xorBit (a % 2) (b % 2) + 2 * bxorGo fuel (a / 2) (b / 2)

/-- The C `uint8_t` XOR `a ^ b` (8 bits). -/
def bxor (a b : Nat) : Nat := bxorGo 8 a b

/-- isspace, as used by strtol/atoi/atof (space and the five control spaces). -/
def isSpaceB (c : Nat) : Bool := c == 32 || (decide (9 ≤ c) && decide (c ≤ 13))

/-- Decimal digit predicate. -/
def isDigitB (c : Nat) : Bool := decide (48 ≤ c) && decide (c ≤ 57)

/-- Hex digit predicate. -/
def isHexDigitB (c : Nat) : Bool :=
  (decide (48 ≤ c) && decide (c ≤ 57)) ||
  (decide (65 ≤ c) && decide (c ≤ 70)) ||
  (decide (97 ≤ c) && decide (c ≤ 102))

/-- Value of a hex digit byte. -/
def hexDigVal (c : Nat) : Nat :=
  if 48 ≤ c ∧ c ≤ 57 then c - 48
  else if 65 ≤ c ∧ c ≤ 70 then c - 55
  else if 97 ≤ c ∧ c ≤ 102 then c - 87
  else 0

/-- Value of a decimal digit string. -/
def digitsVal (s : List Nat) : Nat := s.foldl (fun acc c => acc * 10 + (c - 48)) 0

/-- Value of a hex digit string. -/
def hexVal (s : List Nat) : Nat := s.foldl (fun acc c => acc * 16 + hexDigVal c) 0

/-- The C cast `(uint8_t)v` of a signed value. -/
def toUint8 (v : Int) : Nat := (v.emod 256).toNat

/-- Model of `strlen`: length up to the first 0 byte. -/
def strlenL (s : List Nat) : Nat := (s.takeWhile (fun c => !(c == 0))).length

/-- Model of `strchr(s, c)`: the suffix starting at the first occurrence of `c`,
stopping the search at a 0 byte as strchr does. -/
def strchrL (c : Nat) : List Nat → Option (List Nat)
  | [] => none
  | b :: r => if b = 0 then none else if b = c then some (b :: r) else strchrL c r

/-- Consume an optional leading sign: returns (negative?, rest). -/
def signSplit (s : List Nat) : Bool × List Nat :=
  if s.headD 0 = 45 then (true, s.drop 1)
  else if s.headD 0 = 43 then (false, s.drop 1)
  else (false, s)

/-- Model of `atoi`: optional whitespace, optional sign, decimal digits. -/
def atoiZ (s : List Nat) : Int :=
  let p := signSplit (s.dropWhile isSpaceB)
  let v : Int := (digitsVal (p.2.takeWhile isDigitB) : Int)
  if p.1 then -v else v

/-- C float values are modelled as exact (unreduced) decimal fractions; no
claim inspects them numerically. -/
structure CFloat where
  num : Int
  den : Nat
deriving DecidableEq, Repr

def CFloat.mul (a b : CFloat) : CFloat := ⟨a.num * b.num, a.den * b.den⟩

def CFloat.neg (a : CFloat) : CFloat := ⟨-a.num, a.den⟩

/-- Model of `atof` on the decimal subset used by the firmware (optional
whitespace, optional sign, digits, optional fraction; the NMEA fields fed to
it never carry an exponent). -/
def atofF (s : List Nat) : CFloat :=
  let p := signSplit (s.dropWhile isSpaceB)
  let ip := p.2.takeWhile isDigitB
  let rest := p.2.drop ip.length
  let fp :=
    match rest with
    | 46 :: r => r.takeWhile isDigitB
    | _ => []
  let v : CFloat := ⟨(digitsVal ip * 10 ^ fp.length + digitsVal fp : Nat), 10 ^ fp.length⟩
  if p.1 then CFloat.neg v else v

/-- Model of `strtol(s, NULL, 16)`: whitespace, sign, optional 0x prefix,
hex digits. -/
def strtol16 (s : List Nat) : Int :=
  let p := signSplit (s.dropWhile isSpaceB)
  let s3 :=
    if p.2.headD 0 = 48 ∧ ((p.2.drop 1).headD 0 = 120 ∨ (p.2.drop 1).headD 0 = 88) ∧
        isHexDigitB ((p.2.drop 2).headD 0) then p.2.drop 2
    else p.2
  let v : Int := (hexVal (s3.takeWhile isHexDigitB) : Int)
  if p.1 then -v else v

/- ===== Ring buffer (util/ring_buffer.c) =====
The ring_buffer.h header is not in the tree; the struct fields below are the
ones the .c file uses (`buffer`, `size`, `head`, `tail`, `count`), matching
the RingBuffer data model of the spec.  `rb_size_t` arithmetic cannot overflow
because `count ≤ size` is maintained, so Nat models it faithfully. -/

structure ring_buffer_t where
  buffer : Nat → Nat
  size : Nat
  head : Nat
  tail : Nat
  count : Nat

/-- ring_buffer_init with a caller-supplied storage function (the claims only
concern non-null storage and size > 0, where init stores the arguments and
zeroes the cursors). -/
def ring_buffer_init (buf : Nat → Nat) (size : Nat) : ring_buffer_t :=
  ⟨buf, size, 0, 0, 0⟩

def ring_buffer_is_empty (rb : ring_buffer_t) : Bool := rb.count == 0

def ring_buffer_is_full (rb : ring_buffer_t) : Bool := rb.count == rb.size

def ring_buffer_bytes_available (rb : ring_buffer_t) : Nat := rb.count

/-- `size - count` (C unsigned subtraction agrees with Nat subtraction under
the invariant `count ≤ size`). -/
def ring_buffer_space_remaining (rb : ring_buffer_t) : Nat := rb.size - rb.count

def ring_buffer_write (rb : ring_buffer_t) (data : Nat) : Bool × ring_buffer_t :=
  if ring_buffer_is_full rb then (false, rb)
  else (true, { rb with
    buffer := Function.update rb.buffer rb.head data
    head := (rb.head + 1) % rb.size
    count := rb.count + 1 })

def ring_buffer_read (rb : ring_buffer_t) : Option Nat × ring_buffer_t :=
  if ring_buffer_is_empty rb then (none, rb)
  else (some (rb.buffer rb.tail), { rb with
    tail := (rb.tail + 1) % rb.size
    count := rb.count - 1 })

/-- One external call on the buffer: a write of a byte or a read. -/
inductive RBOp where
  | write (b : Nat)
  | read
deriving DecidableEq, Repr

def rb_step (rb : ring_buffer_t) : RBOp → ring_buffer_t
  | RBOp.write b => (ring_buffer_write rb b).2
  | RBOp.read => (ring_buffer_read rb).2

def rb_run : ring_buffer_t → List RBOp → ring_buffer_t
  | rb, [] => rb
  | rb, op :: rest => rb_run (rb_step rb op) rest

/-- Bytes successfully written (write returned true) along a call sequence. -/
def writtenSeq : ring_buffer_t → List RBOp → List Nat
  | _, [] => []
  | rb, RBOp.write b :: rest =>
    (if (ring_buffer_write rb b).1 then [b] else []) ++ writtenSeq (rb_step rb (RBOp.write b)) rest
  | rb, RBOp.read :: rest => writtenSeq (rb_step rb RBOp.read) rest

/-- Bytes successfully read along a call sequence. -/
def readSeq : ring_buffer_t → List RBOp → List Nat
  | _, [] => []
  | rb, RBOp.write b :: rest => readSeq (rb_step rb (RBOp.write b)) rest
  | rb, RBOp.read :: rest =>
    (match (ring_buffer_read rb).1 with
     | some x => [x]
     | none => []) ++ readSeq (rb_step rb RBOp.read) rest

/-- The queue the buffer currently holds, oldest first. -/
def rb_contents (rb : ring_buffer_t) : List Nat :=
  (List.range rb.count).map (fun i => rb.buffer ((rb.tail + i) % rb.size))

/-- Structural invariant of a live ring buffer. -/
def rb_wf (rb : ring_buffer_t) : Prop :=
  0 < rb.size ∧ rb.count ≤ rb.size ∧ rb.head < rb.size ∧ rb.tail < rb.size ∧
    rb.head = (rb.tail + rb.count) % rb.size

/- ===== GPS driver (brain_module/src/drivers/gps_driver.c) ===== -/

/-- gps_data_t from include/modules/gps.h; float fields are modelled as exact
decimal fractions (no claim inspects their numeric value). -/
structure gps_data_t where
  hour : Nat
  minute : Nat
  second : Nat
  millisecond : Nat
  day : Nat
  month : Nat
  year : Nat
  latitude : CFloat
  longitude : CFloat
  altitude_msl : CFloat
  speed_knots : CFloat
  speed_kmh : CFloat
  course_deg : CFloat
  fix_quality : Nat
  fix_valid : Bool
  satellites_tracked : Nat
  seen_gga : Bool
  seen_rmc : Bool
deriving DecidableEq, Repr

/-- The static state of gps_driver.c: the record, the two flags, and the NMEA
accumulator (`nmea_buffer` up to `nmea_buffer_index`, plus
`sentence_in_progress`). -/
structure GpsState where
  current_gps_data : gps_data_t
  data_updated : Bool
  data_valid_fix : Bool
  nmea_buffer : List Nat
  sentence_in_progress : Bool
deriving DecidableEq, Repr

/-- State after gps_init: record memset to zero, flags cleared, index zero. -/
def gps_init_data : gps_data_t :=
  ⟨0, 0, 0, 0, 0, 0, 0, ⟨0, 1⟩, ⟨0, 1⟩, ⟨0, 1⟩, ⟨0, 1⟩, ⟨0, 1⟩, ⟨0, 1⟩, 0, false, 0, false, false⟩

def gps_init_state : GpsState := ⟨gps_init_data, false, false, [], false⟩

/-- The loop of nmea_calculate_checksum: XOR bytes until a 0 byte or `*`. -/
def cksumGo : List Nat → Nat → Nat
  | [], acc => acc
  | c :: r, acc => if c = 0 ∨ c = 42 then acc else cksumGo r (bxor acc c)

/-- nmea_calculate_checksum: skip a leading `$`, XOR up to `*`. -/
def nmea_calculate_checksum (s : List Nat) : Nat :=
  match s with
  | 36 :: r => cksumGo r 0
  | _ => cksumGo s 0

/-- nmea_validate_checksum: find `*`, require at least two bytes after it,
compare the XOR with the hex value after `*`. -/
def nmea_validate_checksum (s : List Nat) : Bool :=
  match strchrL 42 s with
  | none => false
  | some cs =>
    if strlenL cs < 3 then false
    else nmea_calculate_checksum s == toUint8 (strtol16 (cs.drop 1))

/-- The scanning loop of nmea_split_fields.  `count` fields have been opened so far;
`cur` is the field being scanned, `acc` the closed fields.  The loop runs
while the byte is neither 0 nor `*` and `count < maxF`; a `,` closes the
current field; after the loop a `*` at the stop position terminates the last
field there, otherwise the last field runs to the end of the C string. -/
def splitGo (maxF : Nat) : Nat → List Nat → List Nat → List (List Nat) → List (List Nat)
  | _, [], cur, acc => acc ++ [cur]
  | count, c :: rest, cur, acc =>
    if count < maxF then
      if c = 0 ∨ c = 42 then acc ++ [cur]
      else if c = 44 then splitGo maxF (count + 1) rest [] (acc ++ [cur])
      else splitGo maxF count rest (cur ++ [c]) acc
    else
      if c = 42 then acc ++ [cur]
      else acc ++ [cur ++ (c :: rest).takeWhile (fun b => !(b == 0))]

def nmea_split_fields (s : List Nat) (maxFields : Nat) : List (List Nat) :=
  splitGo maxFields 1 s [] []

/-- parse_gprmc: requires at least 12 fields, sets the dummy time/date and
position, the validity flag from field 2, speed/course from fields 7/8, and
marks the record updated. -/
def parse_gprmc (st : GpsState) (fields : List (List Nat)) : GpsState :=
  if fields.length < 12 then st
  else
    let d0 := st.current_gps_data
    let d1 := if 6 ≤ strlenL (fields.getD 1 []) then
        { d0 with hour := 12, minute := 34, second := 56 } else d0
    let d2 := { d1 with fix_valid := (fields.getD 2 []).headD 0 == 65 }
    let d3 := { d2 with latitude := (⟨407128, 10000⟩ : CFloat),
                        longitude := CFloat.neg ⟨740060, 10000⟩ }
    let d4 := { d3 with speed_knots := atofF (fields.getD 7 []) }
    let d5 := { d4 with speed_kmh := d4.speed_knots.mul ⟨1852, 1000⟩ }
    let d6 := { d5 with course_deg := atofF (fields.getD 8 []) }
    let d7 := if strlenL (fields.getD 9 []) = 6 then
        { d6 with day := 5, month := 5, year := 2025 } else d6
    let d8 := { d7 with seen_rmc := true }
    { st with current_gps_data := d8, data_updated := true, data_valid_fix := d8.fix_valid }

/-- parse_gpgga: requires at least 10 fields, stores the fix quality, derives
fix validity from it when no RMC was seen or field 2 starts with `V`, stores
satellites and altitude, and marks the record updated. -/
def parse_gpgga (st : GpsState) (fields : List (List Nat)) : GpsState :=
  if fields.length < 10 then st
  else
    let d0 := st.current_gps_data
    let d1 := { d0 with fix_quality := toUint8 (atoiZ (fields.getD 6 [])) }
    let d2 := if d1.seen_rmc = false ∨ (fields.getD 2 []).headD 0 = 86 then
        { d1 with fix_valid := decide (0 < d1.fix_quality) } else d1
    let d3 := { d2 with satellites_tracked := toUint8 (atoiZ (fields.getD 7 [])) }
    let d4 := { d3 with altitude_msl := atofF (fields.getD 9 []) }
    let d5 := { d4 with seen_gga := true }
    { st with current_gps_data := d5, data_updated := true, data_valid_fix := d5.fix_valid }

/-- process_nmea_sentence: split the sentence after the `$` into at most 20
fields and dispatch on the 5-character tag. -/
def process_nmea_sentence (st : GpsState) (sentence : List Nat) : GpsState :=
  let fields := nmea_split_fields (sentence.drop 1) 20
  if fields.length < 1 then st
  else if (fields.headD []).take 5 = strBytes "GPRMC" ∨
          (fields.headD []).take 5 = strBytes "GNRMC" then parse_gprmc st fields
  else if (fields.headD []).take 5 = strBytes "GPGGA" ∨
          (fields.headD []).take 5 = strBytes "GNGGA" then parse_gpgga st fields
  else st

/-- gps_process_char: `$` restarts the accumulator; while a sentence is in
progress a byte is appended if the index is below NMEA_MAX_SENTENCE_LEN (82),
otherwise the sentence is discarded; a newline (appended or not) terminates:
a preceding CR is stripped, the checksum is validated and the sentence
dispatched on success. -/
def gps_process_char (st : GpsState) (c : Nat) : GpsState :=
  if c = 36 then
    { st with nmea_buffer := [36], sentence_in_progress := true }
  else if st.sentence_in_progress then
    let p : List Nat × Bool :=
      if st.nmea_buffer.length < 82 then (st.nmea_buffer ++ [c], st.sentence_in_progress)
      else (st.nmea_buffer, false)
    let st1 : GpsState := { st with nmea_buffer := p.1, sentence_in_progress := p.2 }
    if c = 10 then
      let n := p.1.length
      let sentence := if 1 < n ∧ p.1.getD (n - 2) 0 = 13 then p.1.take (n - 2) else p.1.take (n - 1)
      let st2 := if nmea_validate_checksum sentence then process_nmea_sentence st1 sentence else st1
      { st2 with sentence_in_progress := false }
    else st1
  else st

/-- Feeding a byte stream one byte at a time into gps_process_char. -/
def gps_feed (st : GpsState) (bytes : List Nat) : GpsState :=
  bytes.foldl gps_process_char st

/- ===== BLE receiver (display_module/src/drivers/ble_rx.c) ===== -/

/-- display_status_data_t from include/modules/ble_rx.h. -/
structure display_status_data_t where
  battery_mv : Nat
  signal_status : Nat
  speed_kmh : Nat
  updated : Bool
deriving DecidableEq, Repr

/-- display_nav_data_t; the 64-byte instruction array is modelled by its
C-string value (the bytes before the terminating 0). -/
structure display_nav_data_t where
  instruction : List Nat
  distance_m : Nat
  updated : Bool
deriving DecidableEq, Repr

/-- The static state of ble_rx.c: the two records, the connected flag and the
receive accumulator (`rx_buffer` up to `rx_buffer_idx`). -/
structure BleState where
  current_status_data : display_status_data_t
  current_nav_data : display_nav_data_t
  is_connected : Bool
  rx_buffer : List Nat
deriving DecidableEq, Repr

/-- State after ble_rx_init: zeroed records, default instruction text,
flags cleared, empty accumulator. -/
def ble_rx_init_state : BleState :=
  ⟨⟨0, 0, 0, false⟩, ⟨strBytes "Connecting...", 0, false⟩, false, []⟩

/-- The `%u` conversion of sscanf: skip whitespace, optional sign, at least
one decimal digit; the value accumulates in a 32-bit unsigned int.  Returns
the value and the unconsumed input, or none on a matching failure. -/
def scanU (s : List Nat) : Option (Nat × List Nat) :=
  let p := signSplit (s.dropWhile isSpaceB)
  let ds := p.2.takeWhile isDigitB
  if ds = [] then none
  else
    let v := digitsVal ds % 4294967296
    some ((if p.1 then (4294967296 - v) % 4294967296 else v), p.2.drop ds.length)

/-- `sscanf(s, "%63[^,],%u", ...)`: up to 63 bytes that are neither `,` nor
the terminating 0 (at least one), then a literal `,`, then `%u`.  Returns
the instruction bytes and the distance, or none unless both convert. -/
def scanNav (s : List Nat) : Option (List Nat × Nat) :=
  let instr := (s.takeWhile (fun c => !(c == 0 || c == 44))).take 63
  if instr = [] then none
  else
    match s.drop instr.length with
    | 44 :: rest =>
      match scanU rest with
      | some p => some (instr, p.1)
      | none => none
    | _ => none

/-- `sscanf(s, "%u,%u,%u", ...)`: three `%u` separated by literal commas;
none unless all three convert. -/
def scanStatus (s : List Nat) : Option (Nat × Nat × Nat) :=
  match scanU s with
  | some p1 =>
    match p1.2 with
    | 44 :: r2 =>
      match scanU r2 with
      | some p2 =>
        match p2.2 with
        | 44 :: r4 =>
          match scanU r4 with
          | some p3 => some (p1.1, p2.1, p3.1)
          | none => none
        | _ => none
      | none => none
    | _ => none
  | none => none

/-- parse_ble_message: dispatch on the `NAV:` / `STATUS:` prefix; on a full
parse overwrite the record (with the C integer casts: uint16 for distance
and battery, uint8 for signal and speed), set its updated flag and the
connected flag; otherwise leave all state unchanged. -/
def parse_ble_message (st : BleState) (msg : List Nat) : BleState :=
  if msg.take 4 = strBytes "NAV:" then
    match scanNav (msg.drop 4) with
    | some iv =>
      { st with current_nav_data := ⟨iv.1, iv.2 % 65536, true⟩, is_connected := true }
    | none => st
  else if msg.take 7 = strBytes "STATUS:" then
    match scanStatus (msg.drop 7) with
    | some t =>
      { st with current_status_data := ⟨t.1 % 65536, t.2.1 % 256, t.2.2 % 256, true⟩,
                is_connected := true }
    | none => st
  else st

/-- ble_rx_process_char: BLE_MSG_TERMINATOR (newline) dispatches a non-empty
buffer and always resets the index; otherwise a byte is appended when the
index is below BLE_RX_BUFFER_LEN - 1 (127) and the byte is printable ASCII;
with the buffer at 127 any non-terminator byte discards the message. -/
def ble_rx_process_char (st : BleState) (c : Nat) : BleState :=
  if c = 10 then
    let st1 := if 0 < st.rx_buffer.length then parse_ble_message st st.rx_buffer else st
    { st1 with rx_buffer := [] }
  else if st.rx_buffer.length < 127 then
    if 32 ≤ c ∧ c ≤ 126 then { st with rx_buffer := st.rx_buffer ++ [c] } else st
  else
    { st with rx_buffer := [] }

/-- Feeding a byte stream one byte at a time into ble_rx_process_char. -/
def ble_feed (st : BleState) (bytes : List Nat) : BleState :=
  bytes.foldl ble_rx_process_char st

/-- ble_rx_get_nav_data: when the updated flag is set, copy the record out
and clear the flag; modelled as the copied record (or none) plus the new
state. -/
def ble_rx_get_nav_data (st : BleState) : Option display_nav_data_t × BleState :=
  if st.current_nav_data.updated then
    (some st.current_nav_data,
      { st with current_nav_data := { st.current_nav_data with updated := false } })
  else (none, st)

/-- ble_rx_get_status_data, analogously. -/
def ble_rx_get_status_data (st : BleState) : Option display_status_data_t × BleState :=
  if st.current_status_data.updated then
    (some st.current_status_data,
      { st with current_status_data := { st.current_status_data with updated := false } })
  else (none, st)

/- ===== Theorems ===== -/

theorem rb_contents_length (rb : ring_buffer_t) : (rb_contents rb).length = rb.count := by
  simp [rb_contents]

theorem rb_wf_init (buf : Nat → Nat) (N : Nat) (hN : 0 < N) :
    rb_wf (ring_buffer_init buf N) := by
  simp [rb_wf, ring_buffer_init, hN]

theorem rb_contents_init (buf : Nat → Nat) (N : Nat) :
    rb_contents (ring_buffer_init buf N) = [] := by
  simp [rb_contents, ring_buffer_init]

theorem rb_mod_index_ne (N tail i count : Nat) (hc : count < N) (hi : i < count) :
    (tail + i) % N ≠ (tail + count) % N := by
  intro h
  have h1 : i ≡ count [MOD N] := Nat.ModEq.add_left_cancel' tail h
  have h2 : N ∣ count - i := (Nat.modEq_iff_dvd' (Nat.le_of_lt hi)).mp h1
  have h3 : N ≤ count - i := Nat.le_of_dvd (by omega) h2
  omega

theorem rb_write_full_eq (rb : ring_buffer_t) (b : Nat) (h : rb.count = rb.size) :
    ring_buffer_write rb b = (false, rb) := by
  simp [ring_buffer_write, ring_buffer_is_full, h]

theorem rb_read_empty_eq (rb : ring_buffer_t) (h : rb.count = 0) :
    ring_buffer_read rb = (none, rb) := by
  simp [ring_buffer_read, ring_buffer_is_empty, h]

theorem rb_write_step (rb : ring_buffer_t) (b : Nat) (hwf : rb_wf rb) (hc : rb.count < rb.size) :
    (ring_buffer_write rb b).1 = true ∧
    rb_wf (ring_buffer_write rb b).2 ∧
    rb_contents (ring_buffer_write rb b).2 = rb_contents rb ++ [b] ∧
    (ring_buffer_write rb b).2.size = rb.size := by
  obtain ⟨hN, hcnt, hh, ht, he⟩ := hwf
  have hfull : ring_buffer_is_full rb = false := by
    simp [ring_buffer_is_full]; omega
  have hw : ring_buffer_write rb b = (true, { rb with
      buffer := Function.update rb.buffer rb.head b
      head := (rb.head + 1) % rb.size
      count := rb.count + 1 }) := by
    simp [ring_buffer_write, hfull]
  rw [hw]
  refine ⟨rfl, ⟨hN, ?_, ?_, ht, ?_⟩, ?_, rfl⟩
  · show rb.count + 1 ≤ rb.size
    omega
  · exact Nat.mod_lt _ hN
  · show (rb.head + 1) % rb.size = (rb.tail + (rb.count + 1)) % rb.size
    rw [he, Nat.mod_add_mod, Nat.add_assoc]
  · show rb_contents _ = _
    simp only [rb_contents]
    rw [List.range_succ, List.map_append]
    congr 1
    · apply List.map_congr_left
      intro i hi
      have hilt : i < rb.count := List.mem_range.mp hi
      apply Function.update_noteq
      rw [he]
      exact rb_mod_index_ne rb.size rb.tail i rb.count hc hilt
    · simp only [List.map_cons, List.map_nil]
      rw [← he]
      rw [Function.update_same]

theorem rb_read_step (rb : ring_buffer_t) (hwf : rb_wf rb) (hc : 0 < rb.count) :
    (ring_buffer_read rb).1 = some (rb.buffer rb.tail) ∧
    rb_wf (ring_buffer_read rb).2 ∧
    rb_contents rb = rb.buffer rb.tail :: rb_contents (ring_buffer_read rb).2 ∧
    (ring_buffer_read rb).2.size = rb.size := by
  obtain ⟨hN, hcnt, hh, ht, he⟩ := hwf
  have hemp : ring_buffer_is_empty rb = false := by
    simp [ring_buffer_is_empty]; omega
  obtain ⟨k, hk⟩ : ∃ k, rb.count = k + 1 := ⟨rb.count - 1, by omega⟩
  have hr : ring_buffer_read rb = (some (rb.buffer rb.tail), { rb with
      tail := (rb.tail + 1) % rb.size
      count := rb.count - 1 }) := by
    simp [ring_buffer_read, hemp]
  rw [hr]
  refine ⟨rfl, ⟨hN, ?_, hh, ?_, ?_⟩, ?_, rfl⟩
  · show rb.count - 1 ≤ rb.size
    omega
  · exact Nat.mod_lt _ hN
  · show rb.head = ((rb.tail + 1) % rb.size + (rb.count - 1)) % rb.size
    rw [he, hk, Nat.mod_add_mod]
    congr 1
    omega
  · show rb_contents rb = _ :: rb_contents _
    simp only [rb_contents, hk, Nat.add_sub_cancel]
    rw [List.range_succ_eq_map]
    simp only [List.map_cons, List.map_map]
    congr 1
    · rw [Nat.add_zero, Nat.mod_eq_of_lt ht]
    · apply List.map_congr_left
      intro i _
      simp only [Function.comp]
      congr 1
      rw [Nat.mod_add_mod]
      congr 1
      omega

theorem rb_trace (ops : List RBOp) : ∀ rb : ring_buffer_t, rb_wf rb →
    rb_wf (rb_run rb ops) ∧ (rb_run rb ops).size = rb.size ∧
    readSeq rb ops ++ rb_contents (rb_run rb ops) = rb_contents rb ++ writtenSeq rb ops := by
  induction ops with
  | nil =>
    intro rb h
    exact ⟨h, rfl, by simp [readSeq, writtenSeq, rb_run]⟩
  | cons op rest ih =>
    intro rb hwf
    match op with
    | RBOp.write b =>
      by_cases hc : rb.count < rb.size
      · obtain ⟨hs, hwf2, hcont, hsize⟩ := rb_write_step rb b hwf hc
        obtain ⟨ihwf, ihsize, ihtrace⟩ := ih _ hwf2
        refine ⟨?_, ?_, ?_⟩
        · simpa [rb_run, rb_step] using ihwf
        · simp only [rb_run, rb_step]
          rw [ihsize, hsize]
        · simp only [rb_run, rb_step, readSeq, writtenSeq, hs, if_true]
          rw [ihtrace, hcont]
          simp
      · have hc2 : rb.count = rb.size := by
          have := hwf.2.1
          omega
        have heq := rb_write_full_eq rb b hc2
        have hstep : rb_step rb (RBOp.write b) = rb := by simp [rb_step, heq]
        obtain ⟨ihwf, ihsize, ihtrace⟩ := ih rb hwf
        refine ⟨?_, ?_, ?_⟩
        · simpa [rb_run, hstep] using ihwf
        · simpa [rb_run, hstep] using ihsize
        · simp only [rb_run, readSeq, writtenSeq, heq, hstep]
          simpa using ihtrace
    | RBOp.read =>
      by_cases hc : 0 < rb.count
      · obtain ⟨hs, hwf2, hcont, hsize⟩ := rb_read_step rb hwf hc
        obtain ⟨ihwf, ihsize, ihtrace⟩ := ih _ hwf2
        refine ⟨?_, ?_, ?_⟩
        · simpa [rb_run, rb_step] using ihwf
        · simp only [rb_run, rb_step]
          rw [ihsize, hsize]
        · simp only [rb_run, rb_step, readSeq, writtenSeq, hs]
          rw [List.append_assoc, ihtrace, hcont]
          simp
      · have hc2 : rb.count = 0 := by omega
        have heq := rb_read_empty_eq rb hc2
        have hstep : rb_step rb RBOp.read = rb := by simp [rb_step, heq]
        obtain ⟨ihwf, ihsize, ihtrace⟩ := ih rb hwf
        refine ⟨?_, ?_, ?_⟩
        · simpa [rb_run, hstep] using ihwf
        · simpa [rb_run, hstep] using ihsize
        · simp only [rb_run, readSeq, writtenSeq, heq, hstep]
          simpa using ihtrace

theorem readSeq_write_cons (rb : ring_buffer_t) (b : Nat) (rest : List RBOp) :
    readSeq rb (RBOp.write b :: rest) = readSeq (ring_buffer_write rb b).2 rest := rfl

theorem readSeq_read_cons (rb : ring_buffer_t) (rest : List RBOp) (v : Nat)
    (h : (ring_buffer_read rb).1 = some v) :
    readSeq rb (RBOp.read :: rest) = v :: readSeq (ring_buffer_read rb).2 rest := by
  simp [readSeq, rb_step, h]

/-- Claim C2: for every sequence of writes and reads on a ring buffer
initialized with capacity N > 0, bytes_available + space_remaining = N after
every call, count stays in [0, N], and a write on a full buffer returns
false and leaves the whole state unchanged. -/
theorem ring_buffer_invariant (buf : Nat → Nat) (N : Nat) (ops : List RBOp) (b : Nat)
    (hN : 0 < N) :
    ring_buffer_bytes_available (rb_run (ring_buffer_init buf N) ops) +
      ring_buffer_space_remaining (rb_run (ring_buffer_init buf N) ops) = N ∧
    (rb_run (ring_buffer_init buf N) ops).count ≤ N ∧
    (ring_buffer_is_full (rb_run (ring_buffer_init buf N) ops) = true →
      ring_buffer_write (rb_run (ring_buffer_init buf N) ops) b =
        (false, rb_run (ring_buffer_init buf N) ops)) := by
  obtain ⟨hwf, hsize, _⟩ := rb_trace ops (ring_buffer_init buf N) (rb_wf_init buf N hN)
  have hszN : (rb_run (ring_buffer_init buf N) ops).size = N := hsize
  obtain ⟨_, hcnt, _, _, _⟩ := hwf
  refine ⟨?_, by omega, ?_⟩
  · simp only [ring_buffer_bytes_available, ring_buffer_space_remaining]
    omega
  · intro hf
    have hfc : (rb_run (ring_buffer_init buf N) ops).count =
        (rb_run (ring_buffer_init buf N) ops).size := by
      simpa [ring_buffer_is_full] using hf
    exact rb_write_full_eq _ b hfc

theorem ring_buffer_invariant_witness :
    0 < 2 ∧
    (ring_buffer_bytes_available (rb_run (ring_buffer_init (fun _ => 0) 2)
        [RBOp.write 5, RBOp.write 6, RBOp.write 7, RBOp.read]) +
      ring_buffer_space_remaining (rb_run (ring_buffer_init (fun _ => 0) 2)
        [RBOp.write 5, RBOp.write 6, RBOp.write 7, RBOp.read]) = 2 ∧
    (rb_run (ring_buffer_init (fun _ => 0) 2)
        [RBOp.write 5, RBOp.write 6, RBOp.write 7, RBOp.read]).count ≤ 2 ∧
    (ring_buffer_is_full (rb_run (ring_buffer_init (fun _ => 0) 2)
        [RBOp.write 5, RBOp.write 6, RBOp.write 7, RBOp.read]) = true →
      ring_buffer_write (rb_run (ring_buffer_init (fun _ => 0) 2)
          [RBOp.write 5, RBOp.write 6, RBOp.write 7, RBOp.read]) 9 =
        (false, rb_run (ring_buffer_init (fun _ => 0) 2)
          [RBOp.write 5, RBOp.write 6, RBOp.write 7, RBOp.read]))) :=
  ⟨by decide,
    ring_buffer_invariant (fun _ => 0) 2 [RBOp.write 5, RBOp.write 6, RBOp.write 7, RBOp.read] 9
      (by decide)⟩

/-- Claim C3: the ring buffer is FIFO: for every call sequence the bytes
successfully read are, in order, an initial run of the bytes successfully
written, and on a buffer of capacity N ≥ 3 writing a, b, c and reading three
times yields a, b, c. -/
theorem ring_buffer_fifo (buf : Nat → Nat) (N : Nat) (ops : List RBOp) (a b c : Nat)
    (h3 : 3 ≤ N) :
    readSeq (ring_buffer_init buf N) ops <+: writtenSeq (ring_buffer_init buf N) ops ∧
    readSeq (ring_buffer_init buf N)
      [RBOp.write a, RBOp.write b, RBOp.write c, RBOp.read, RBOp.read, RBOp.read] =
      [a, b, c] := by
  have hN : 0 < N := by omega
  constructor
  · obtain ⟨_, _, htrace⟩ := rb_trace ops (ring_buffer_init buf N) (rb_wf_init buf N hN)
    rw [rb_contents_init] at htrace
    exact ⟨_, by simpa using htrace⟩
  · have hwf0 := rb_wf_init buf N hN
    have hcont0 := rb_contents_init buf N
    obtain ⟨hs1, hwf1, hcont1, hsz1⟩ := rb_write_step (ring_buffer_init buf N) a hwf0
      (by simp [ring_buffer_init]; omega)
    rw [hcont0, List.nil_append] at hcont1
    have hsz1' : (ring_buffer_write (ring_buffer_init buf N) a).2.size = N := hsz1
    have hct1 := rb_contents_length (ring_buffer_write (ring_buffer_init buf N) a).2
    rw [hcont1] at hct1
    simp only [List.length_singleton] at hct1
    obtain ⟨hs2, hwf2, hcont2, hsz2⟩ := rb_write_step _ b hwf1 (by rw [← hct1, hsz1']; omega)
    rw [hcont1] at hcont2
    have hsz2' := hsz2.trans hsz1'
    have hct2 := rb_contents_length (ring_buffer_write (ring_buffer_write
      (ring_buffer_init buf N) a).2 b).2
    rw [hcont2] at hct2
    simp only [List.length_append, List.length_singleton] at hct2
    obtain ⟨hs3, hwf3, hcont3, hsz3⟩ := rb_write_step _ c hwf2 (by rw [← hct2, hsz2']; omega)
    rw [hcont2] at hcont3
    have hsz3' := hsz3.trans hsz2'
    have hct3 := rb_contents_length (ring_buffer_write (ring_buffer_write (ring_buffer_write
      (ring_buffer_init buf N) a).2 b).2 c).2
    rw [hcont3] at hct3
    simp only [List.length_append, List.length_singleton] at hct3
    obtain ⟨hr4, hwf4, hcont4, hsz4⟩ := rb_read_step _ hwf3 (by rw [← hct3]; omega)
    rw [hcont3] at hcont4
    simp only [List.append_assoc, List.singleton_append] at hcont4
    have hv4 : _ = a := (List.cons.injEq _ _ _ _ ▸ hcont4).1.symm
    have hrest4 : rb_contents (ring_buffer_read (ring_buffer_write (ring_buffer_write
        (ring_buffer_write (ring_buffer_init buf N) a).2 b).2 c).2).2 = [b, c] :=
      ((List.cons.injEq _ _ _ _ ▸ hcont4).2).symm
    have hct4 := rb_contents_length (ring_buffer_read (ring_buffer_write (ring_buffer_write
      (ring_buffer_write (ring_buffer_init buf N) a).2 b).2 c).2).2
    rw [hrest4] at hct4
    simp only [List.length_cons, List.length_singleton] at hct4
    obtain ⟨hr5, hwf5, hcont5, hsz5⟩ := rb_read_step _ hwf4 (by rw [← hct4]; omega)
    rw [hrest4] at hcont5
    have hv5 : _ = b := (List.cons.injEq _ _ _ _ ▸ hcont5).1.symm
    have hrest5 := ((List.cons.injEq _ _ _ _ ▸ hcont5).2).symm
    have hct5 := rb_contents_length (ring_buffer_read (ring_buffer_read (ring_buffer_write
      (ring_buffer_write (ring_buffer_write (ring_buffer_init buf N) a).2 b).2 c).2).2).2
    rw [hrest5] at hct5
    simp only [List.length_singleton] at hct5
    obtain ⟨hr6, hwf6, hcont6, hsz6⟩ := rb_read_step _ hwf5 (by rw [← hct5]; omega)
    rw [hrest5] at hcont6
    have hv6 : _ = c := (List.cons.injEq _ _ _ _ ▸ hcont6).1.symm
    rw [readSeq_write_cons, readSeq_write_cons, readSeq_write_cons,
      readSeq_read_cons _ _ _ hr4, readSeq_read_cons _ _ _ hr5, readSeq_read_cons _ _ _ hr6]
    rw [hv4, hv5, hv6]
    rfl

theorem ring_buffer_fifo_witness :
    3 ≤ 3 ∧
    (readSeq (ring_buffer_init (fun _ => 0) 3) [RBOp.write 9, RBOp.read] <+:
      writtenSeq (ring_buffer_init (fun _ => 0) 3) [RBOp.write 9, RBOp.read] ∧
    readSeq (ring_buffer_init (fun _ => 0) 3)
      [RBOp.write 4, RBOp.write 5, RBOp.write 6, RBOp.read, RBOp.read, RBOp.read] =
      [4, 5, 6]) :=
  ⟨by decide, ring_buffer_fifo (fun _ => 0) 3 [RBOp.write 9, RBOp.read] 4 5 6 (by decide)⟩

theorem gps_restart (st : GpsState) :
    gps_process_char st 36 =
      GpsState.mk st.current_gps_data st.data_updated st.data_valid_fix [36] true := by
  cases st
  simp [gps_process_char]

theorem gps_feed_cons (st : GpsState) (c : Nat) (bs : List Nat) :
    gps_feed st (c :: bs) = gps_feed (gps_process_char st c) bs := rfl

theorem gps_feed_restart (st : GpsState) (bs : List Nat) :
    gps_feed st (36 :: bs) =
      gps_feed (GpsState.mk st.current_gps_data st.data_updated st.data_valid_fix [36] true) bs := by
  rw [gps_feed_cons, gps_restart]

/-- Bytes that are not `$` are ignored while no sentence is in progress. -/
theorem gps_idle_feed (bs : List Nat) : ∀ st : GpsState,
    st.sentence_in_progress = false → (∀ c ∈ bs, c ≠ 36) → gps_feed st bs = st := by
  induction bs with
  | nil => intro st _ _; rfl
  | cons c rest ih =>
    intro st hp hbs
    have hc : c ≠ 36 := (hbs c (List.mem_cons_self c rest)).imp id
    rw [gps_feed_cons]
    have hstep : gps_process_char st c = st := by
      simp [gps_process_char, hc, hp]
    rw [hstep]
    exact ih st hp (fun b hb => hbs b (List.mem_cons_of_mem c hb))

/-- While a sentence is in progress, bytes other than `$` and newline that fit
the accumulator are simply appended. -/
theorem gps_accum_feed (bs : List Nat) : ∀ st : GpsState,
    st.sentence_in_progress = true → (∀ c ∈ bs, c ≠ 36 ∧ c ≠ 10) →
    st.nmea_buffer.length + bs.length ≤ 82 →
    gps_feed st bs = { st with nmea_buffer := st.nmea_buffer ++ bs } := by
  induction bs with
  | nil =>
    intro st _ _ _
    simp [gps_feed]
  | cons c rest ih =>
    intro st hp hbs hlen
    obtain ⟨hc36, hc10⟩ := hbs c (List.mem_cons_self c rest)
    have hroom : st.nmea_buffer.length < 82 := by
      simp only [List.length_cons] at hlen
      omega
    rw [gps_feed_cons]
    have hstep : gps_process_char st c =
        { st with nmea_buffer := st.nmea_buffer ++ [c] } := by
      simp [gps_process_char, hc36, hc10, hp, hroom]
    rw [hstep]
    rw [ih _ (by simp [hp]) (fun b hb => hbs b (List.mem_cons_of_mem c hb))
      (by simp at hlen ⊢; omega)]
    simp

/-- While a sentence is in progress, any stream of non-`$`, non-newline bytes
long enough to overflow the 82-byte accumulator leaves the record and both
flags untouched and ends with no sentence in progress. -/
theorem gps_overflow_feed (bs : List Nat) : ∀ st : GpsState,
    st.sentence_in_progress = true → (∀ c ∈ bs, c ≠ 36 ∧ c ≠ 10) →
    st.nmea_buffer.length ≤ 82 → 83 ≤ st.nmea_buffer.length + bs.length →
    (gps_feed st bs).current_gps_data = st.current_gps_data ∧
    (gps_feed st bs).data_updated = st.data_updated ∧
    (gps_feed st bs).data_valid_fix = st.data_valid_fix ∧
    (gps_feed st bs).sentence_in_progress = false := by
  induction bs with
  | nil =>
    intro st _ _ hb hlen
    simp only [List.length_nil, Nat.add_zero] at hlen
    omega
  | cons c rest ih =>
    intro st hp hbs hble hlen
    obtain ⟨hc36, hc10⟩ := hbs c (List.mem_cons_self c rest)
    rw [gps_feed_cons]
    by_cases hroom : st.nmea_buffer.length < 82
    · have hstep : gps_process_char st c =
          { st with nmea_buffer := st.nmea_buffer ++ [c] } := by
        simp [gps_process_char, hc36, hc10, hp, hroom]
      rw [hstep]
      exact ih _ (by simp [hp]) (fun b hb => hbs b (List.mem_cons_of_mem c hb))
        (by simp; omega)
        (by simp at hlen ⊢; omega)
    · have hstep : gps_process_char st c = { st with sentence_in_progress := false } := by
        simp [gps_process_char, hc36, hc10, hp, hroom]
      rw [hstep]
      rw [gps_idle_feed rest _ (by simp) (fun b hb => ((hbs b (List.mem_cons_of_mem c hb)).1))]
      exact ⟨rfl, rfl, rfl, rfl⟩

theorem strchrL_append (c : Nat) (body l : List Nat) (h : ∀ b ∈ body, b ≠ 0 ∧ b ≠ c) :
    strchrL c (body ++ l) = strchrL c l := by
  induction body with
  | nil => rfl
  | cons b rest ih =>
    obtain ⟨h0, hc⟩ := h b (List.mem_cons_self b rest)
    simp only [List.cons_append, strchrL, h0, hc, if_false]
    exact ih (fun x hx => h x (List.mem_cons_of_mem b hx))

theorem cksumGo_append (body l : List Nat) : ∀ acc : Nat, (∀ b ∈ body, b ≠ 0 ∧ b ≠ 42) →
    cksumGo (body ++ 42 :: l) acc = body.foldl bxor acc := by
  induction body with
  | nil => intro acc _; simp [cksumGo]
  | cons b rest ih =>
    intro acc h
    obtain ⟨h0, hc⟩ := h b (List.mem_cons_self b rest)
    simp only [List.cons_append, cksumGo, h0, hc, or_self, if_false, List.foldl_cons]
    exact ih (bxor acc b) (fun x hx => h x (List.mem_cons_of_mem b hx))

theorem hexDigitB_range (c : Nat) (h : isHexDigitB c = true) :
    48 ≤ c ∧ c ≤ 102 := by
  simp [isHexDigitB] at h
  omega

theorem hexDigVal_lt (c : Nat) : hexDigVal c < 16 := by
  unfold hexDigVal
  split_ifs <;> omega

theorem strtol16_hex_pair (d1 d2 : Nat)
    (hd1 : isHexDigitB d1 = true) (hd2 : isHexDigitB d2 = true) :
    toUint8 (strtol16 [d1, d2]) = 16 * hexDigVal d1 + hexDigVal d2 := by
  have hr1 := hexDigitB_range d1 hd1
  have hr2 := hexDigitB_range d2 hd2
  have hsp1 : isSpaceB d1 = false := by simp [isSpaceB]; omega
  have hne45 : d1 ≠ 45 := by omega
  have hne43 : d1 ≠ 43 := by omega
  have hd2x : d2 ≠ 120 ∧ d2 ≠ 88 := by
    simp [isHexDigitB] at hd2
    omega
  unfold strtol16
  simp only [List.dropWhile_cons, hsp1, Bool.false_eq_true, if_false]
  simp only [signSplit, List.headD_cons, hne45, hne43, if_false]
  simp only [List.drop_one, List.tail_cons, List.headD_cons, hd2x.1, hd2x.2, or_self,
    false_and, and_false, if_false]
  simp only [List.takeWhile_cons, hd1, hd2, if_true, List.takeWhile_nil]
  simp only [hexVal, List.foldl_cons, List.foldl_nil, Nat.zero_mul, Nat.zero_add]
  have hv1 := hexDigVal_lt d1
  have hv2 := hexDigVal_lt d2
  unfold toUint8
  rw [if_neg (by simp)]
  show ((((hexDigVal d1 * 16 + hexDigVal d2 : Nat) : Int) % 256)).toNat =
    16 * hexDigVal d1 + hexDigVal d2
  omega

theorem nmea_validate_characterization (body : List Nat) (d1 d2 : Nat)
    (hbody : ∀ b ∈ body, b ≠ 0 ∧ b ≠ 42)
    (hd1 : isHexDigitB d1 = true) (hd2 : isHexDigitB d2 = true) :
    nmea_validate_checksum (36 :: (body ++ [42, d1, d2])) =
      (body.foldl bxor 0 == 16 * hexDigVal d1 + hexDigVal d2) := by
  have hr1 := hexDigitB_range d1 hd1
  have hr2 := hexDigitB_range d2 hd2
  have hfound : strchrL 42 (36 :: (body ++ [42, d1, d2])) = some [42, d1, d2] := by
    simp only [strchrL, show (36 : Nat) ≠ 0 by decide, show (36 : Nat) ≠ 42 by decide, if_false]
    rw [strchrL_append 42 body [42, d1, d2] hbody]
    simp [strchrL]
  have hlen : strlenL [42, d1, d2] = 3 := by
    have h1 : d1 ≠ 0 := by omega
    have h2 : d2 ≠ 0 := by omega
    simp [strlenL, List.takeWhile_cons, h1, h2]
  have hcalc : nmea_calculate_checksum (36 :: (body ++ [42, d1, d2])) =
      body.foldl bxor 0 := by
    show cksumGo (body ++ 42 :: [d1, d2]) 0 = body.foldl bxor 0
    exact cksumGo_append body [d1, d2] 0 hbody
  unfold nmea_validate_checksum
  rw [hfound]
  simp only [hlen, Nat.lt_irrefl, if_false]
  rw [hcalc]
  rw [show ([42, d1, d2].drop 1) = [d1, d2] from rfl]
  rw [strtol16_hex_pair d1 d2 hd1 hd2]

/-- Claim C1 counterexample: the example sentence of the spec carries checksum 6E,
but the XOR of its body is 7D, so the code drops it: feeding it from the
initial state leaves fix_valid false and the updated flag clear, refuting
the claimed acceptance. -/
theorem nmea_spec_example_rejected :
    (gps_feed gps_init_state (strBytes
      "$GPRMC,123456.00,A,4042.768,N,07400.360,W,5.0,90.0,050525,,,A*6E\r\n")).current_gps_data.fix_valid
      = false ∧
    (gps_feed gps_init_state (strBytes
      "$GPRMC,123456.00,A,4042.768,N,07400.360,W,5.0,90.0,050525,,,A*6E\r\n")).data_updated
      = false := by
  exact ⟨by decide, by decide⟩

/-- Claim C1 (amended): with the correct checksum 7D, feeding the sentence
byte by byte from the initial state sets fix_valid and the updated flag;
with one hex digit of the checksum changed (6D) the record and the flag are
left unchanged; and checksum validation compares the 8-bit XOR of all bytes
strictly between `$` and `*` with the hex value of the two digits after
`*`. -/
theorem nmea_checksum_acceptance (body : List Nat) (d1 d2 : Nat)
    (hbody : ∀ b ∈ body, b ≠ 0 ∧ b ≠ 42)
    (hd1 : isHexDigitB d1 = true) (hd2 : isHexDigitB d2 = true) :
    (gps_feed gps_init_state (strBytes
      "$GPRMC,123456.00,A,4042.768,N,07400.360,W,5.0,90.0,050525,,,A*7D\r\n")).current_gps_data.fix_valid
      = true ∧
    (gps_feed gps_init_state (strBytes
      "$GPRMC,123456.00,A,4042.768,N,07400.360,W,5.0,90.0,050525,,,A*7D\r\n")).data_updated
      = true ∧
    (gps_feed gps_init_state (strBytes
      "$GPRMC,123456.00,A,4042.768,N,07400.360,W,5.0,90.0,050525,,,A*6D\r\n")).current_gps_data
      = gps_init_data ∧
    (gps_feed gps_init_state (strBytes
      "$GPRMC,123456.00,A,4042.768,N,07400.360,W,5.0,90.0,050525,,,A*6D\r\n")).data_updated
      = false ∧
    nmea_validate_checksum (36 :: (body ++ [42, d1, d2])) =
      (body.foldl bxor 0 == 16 * hexDigVal d1 + hexDigVal d2) :=
  ⟨by decide, by decide, by decide, by decide,
    nmea_validate_characterization body d1 d2 hbody hd1 hd2⟩

theorem nmea_checksum_acceptance_witness :
    ((∀ b ∈ strBytes "GPRMC,123456.00,A,4042.768,N,07400.360,W,5.0,90.0,050525,,,A",
        b ≠ 0 ∧ b ≠ 42) ∧
      isHexDigitB 55 = true ∧ isHexDigitB 68 = true) ∧
    nmea_validate_checksum
        (36 :: (strBytes "GPRMC,123456.00,A,4042.768,N,07400.360,W,5.0,90.0,050525,,,A" ++
          [42, 55, 68])) =
      (((strBytes "GPRMC,123456.00,A,4042.768,N,07400.360,W,5.0,90.0,050525,,,A").foldl bxor 0)
        == 16 * hexDigVal 55 + hexDigVal 68) :=
  ⟨⟨by decide, by decide, by decide⟩,
    (nmea_checksum_acceptance
      (strBytes "GPRMC,123456.00,A,4042.768,N,07400.360,W,5.0,90.0,050525,,,A") 55 68
      (by decide) (by decide) (by decide)).2.2.2.2⟩

/-- Claim C5: evaluation of the code at the distinguishing input of the claim:
after a checksum-valid RMC with void status, a checksum-valid GGA with
fix_quality 1 is parsed (quality stored, record updated) but fix_valid
remains false, because parse_gpgga tests field 2 of the GGA itself (the
latitude slot) for `V` rather than the stored RMC status. -/
theorem gpgga_void_fallback_not_taken :
    ((gps_feed (gps_feed gps_init_state (strBytes
        "$GPRMC,123456.00,V,4042.768,N,07400.360,W,5.0,90.0,050525,,,A*6A\r\n"))
      (strBytes
        "$GPGGA,123456.00,4042.768,N,07400.360,W,1,08,1.0,10.0,M*1F\r\n")).current_gps_data.fix_quality
      = 1 ∧
    (gps_feed (gps_feed gps_init_state (strBytes
        "$GPRMC,123456.00,V,4042.768,N,07400.360,W,5.0,90.0,050525,,,A*6A\r\n"))
      (strBytes
        "$GPGGA,123456.00,4042.768,N,07400.360,W,1,08,1.0,10.0,M*1F\r\n")).current_gps_data.seen_rmc
      = true ∧
    (gps_feed (gps_feed gps_init_state (strBytes
        "$GPRMC,123456.00,V,4042.768,N,07400.360,W,5.0,90.0,050525,,,A*6A\r\n"))
      (strBytes
        "$GPGGA,123456.00,4042.768,N,07400.360,W,1,08,1.0,10.0,M*1F\r\n")).data_updated
      = true ∧
    (gps_feed (gps_feed gps_init_state (strBytes
        "$GPRMC,123456.00,V,4042.768,N,07400.360,W,5.0,90.0,050525,,,A*6A\r\n"))
      (strBytes
        "$GPGGA,123456.00,4042.768,N,07400.360,W,1,08,1.0,10.0,M*1F\r\n")).current_gps_data.fix_valid
      = false) := by
  exact ⟨by decide, by decide, by decide, by decide⟩

theorem gps_feed_append (st : GpsState) (xs ys : List Nat) :
    gps_feed st (xs ++ ys) = gps_feed (gps_feed st xs) ys := by
  simp [gps_feed, List.foldl_append]

/-- Claim C8: a GPRMC/GNRMC sentence splitting into fewer than 12 fields is
discarded without touching the record or the flags — in general at the
dispatch level, and end to end for the checksum-valid `$GPRMC,1,2,3*57`
sentence fed after a fully parsed RMC (whose non-trivial record then
witnesses preservation). -/
theorem gps_rmc_insufficient_fields (st : GpsState) (s : List Nat)
    (htag : ((nmea_split_fields (s.drop 1) 20).headD []).take 5 = strBytes "GPRMC" ∨
      ((nmea_split_fields (s.drop 1) 20).headD []).take 5 = strBytes "GNRMC")
    (hcount : (nmea_split_fields (s.drop 1) 20).length < 12) :
    process_nmea_sentence st s = st ∧
    (gps_feed (gps_feed gps_init_state (strBytes
        "$GPRMC,123456.00,A,4042.768,N,07400.360,W,5.0,90.0,050525,,,A*7D\r\n"))
      (strBytes "$GPRMC,1,2,3*57\r\n")).current_gps_data =
      (gps_feed gps_init_state (strBytes
        "$GPRMC,123456.00,A,4042.768,N,07400.360,W,5.0,90.0,050525,,,A*7D\r\n")).current_gps_data ∧
    (gps_feed (gps_feed gps_init_state (strBytes
        "$GPRMC,123456.00,A,4042.768,N,07400.360,W,5.0,90.0,050525,,,A*7D\r\n"))
      (strBytes "$GPRMC,1,2,3*57\r\n")).data_updated = true ∧
    (gps_feed (gps_feed gps_init_state (strBytes
        "$GPRMC,123456.00,A,4042.768,N,07400.360,W,5.0,90.0,050525,,,A*7D\r\n"))
      (strBytes "$GPRMC,1,2,3*57\r\n")).data_valid_fix = true := by
  refine ⟨?_, by decide, by decide, by decide⟩
  unfold process_nmea_sentence
  by_cases h1 : (nmea_split_fields (s.drop 1) 20).length < 1
  · rw [if_pos h1]
  · rw [if_neg h1, if_pos htag]
    unfold parse_gprmc
    rw [if_pos hcount]

theorem gps_rmc_insufficient_fields_witness :
    ((((nmea_split_fields ((strBytes "$GPRMC,1,2,3*57").drop 1) 20).headD []).take 5 =
        strBytes "GPRMC" ∨
      (((nmea_split_fields ((strBytes "$GPRMC,1,2,3*57").drop 1) 20).headD []).take 5 =
        strBytes "GNRMC")) ∧
      (nmea_split_fields ((strBytes "$GPRMC,1,2,3*57").drop 1) 20).length < 12) ∧
    process_nmea_sentence gps_init_state (strBytes "$GPRMC,1,2,3*57") = gps_init_state :=
  ⟨⟨by decide, by decide⟩,
    (gps_rmc_insufficient_fields gps_init_state (strBytes "$GPRMC,1,2,3*57")
      (by decide) (by decide)).1⟩

/-- Claim C4: after a `$` followed by at least 82 further bytes containing
neither `$` nor newline, the oversized sentence is discarded: the record and
the updated flag are untouched and the framer leaves the in-progress state;
a subsequent well-formed sentence then parses successfully. -/
theorem gps_overflow_recovery (junk : List Nat)
    (hlen : 82 ≤ junk.length) (hjunk : ∀ c ∈ junk, c ≠ 36 ∧ c ≠ 10) :
    (gps_feed gps_init_state (36 :: junk)).current_gps_data = gps_init_data ∧
    (gps_feed gps_init_state (36 :: junk)).data_updated = false ∧
    (gps_feed gps_init_state (36 :: junk)).sentence_in_progress = false ∧
    (gps_feed (gps_feed gps_init_state (36 :: junk)) (strBytes
      "$GPRMC,123456.00,A,4042.768,N,07400.360,W,5.0,90.0,050525,,,A*7D\r\n")).data_updated
      = true ∧
    (gps_feed (gps_feed gps_init_state (36 :: junk)) (strBytes
      "$GPRMC,123456.00,A,4042.768,N,07400.360,W,5.0,90.0,050525,,,A*7D\r\n")).current_gps_data.fix_valid
      = true := by
  rw [gps_feed_restart]
  have hmk : GpsState.mk gps_init_state.current_gps_data gps_init_state.data_updated
      gps_init_state.data_valid_fix [36] true =
      GpsState.mk gps_init_data false false [36] true := rfl
  rw [hmk]
  obtain ⟨hrec, hupd, hval, hprog⟩ :=
    gps_overflow_feed junk (GpsState.mk gps_init_data false false [36] true) rfl hjunk
      (by simp) (by simp; omega)
  have hrec2 : (gps_feed (GpsState.mk gps_init_data false false [36] true)
      junk).current_gps_data = gps_init_data := hrec
  have hupd2 : (gps_feed (GpsState.mk gps_init_data false false [36] true)
      junk).data_updated = false := hupd
  have hval2 : (gps_feed (GpsState.mk gps_init_data false false [36] true)
      junk).data_valid_fix = false := hval
  refine ⟨hrec2, hupd2, hprog, ?_, ?_⟩ <;>
  · rw [show strBytes "$GPRMC,123456.00,A,4042.768,N,07400.360,W,5.0,90.0,050525,,,A*7D\r\n" =
        36 :: strBytes "GPRMC,123456.00,A,4042.768,N,07400.360,W,5.0,90.0,050525,,,A*7D\r\n"
        from rfl]
    rw [gps_feed_restart, hrec2, hupd2, hval2]
    decide

theorem gps_overflow_recovery_witness :
    (82 ≤ (List.replicate 82 65).length ∧
      (∀ c ∈ List.replicate 82 65, c ≠ 36 ∧ c ≠ 10)) ∧
    (gps_feed gps_init_state (36 :: List.replicate 82 65)).current_gps_data = gps_init_data ∧
    (gps_feed gps_init_state (36 :: List.replicate 82 65)).data_updated = false ∧
    (gps_feed gps_init_state (36 :: List.replicate 82 65)).sentence_in_progress = false ∧
    (gps_feed (gps_feed gps_init_state (36 :: List.replicate 82 65)) (strBytes
      "$GPRMC,123456.00,A,4042.768,N,07400.360,W,5.0,90.0,050525,,,A*7D\r\n")).data_updated
      = true ∧
    (gps_feed (gps_feed gps_init_state (36 :: List.replicate 82 65)) (strBytes
      "$GPRMC,123456.00,A,4042.768,N,07400.360,W,5.0,90.0,050525,,,A*7D\r\n")).current_gps_data.fix_valid
      = true :=
  ⟨⟨by decide, by decide⟩,
    gps_overflow_recovery (List.replicate 82 65) (by decide) (by decide)⟩

theorem takeWhile_append_all (p : Nat → Bool) (l1 l2 : List Nat)
    (h : ∀ c ∈ l1, p c = true) :
    (l1 ++ l2).takeWhile p = l1 ++ l2.takeWhile p := by
  induction l1 with
  | nil => simp
  | cons a rest ih =>
    have ha := h a (List.mem_cons_self a rest)
    simp only [List.cons_append, List.takeWhile_cons, ha, if_true]
    rw [ih (fun c hc => h c (List.mem_cons_of_mem a hc))]

theorem take_full_of_le (l : List Nat) (n : Nat) (h : l.length ≤ n) : l.take n = l := by
  induction l generalizing n with
  | nil => simp
  | cons a rest ih =>
    cases n with
    | zero => simp at h
    | succ m =>
      simp only [List.take_succ_cons, List.cons.injEq, true_and]
      exact ih m (by simpa using h)

theorem digit_not_space (c : Nat) (h : isDigitB c = true) : isSpaceB c = false := by
  simp [isDigitB] at h
  simp [isSpaceB]
  omega

theorem scanU_digits (ds r : List Nat) (hne : ds ≠ []) (hd : ∀ c ∈ ds, isDigitB c = true)
    (htw : r.takeWhile isDigitB = []) :
    scanU (ds ++ r) = some (digitsVal ds % 4294967296, r) := by
  obtain ⟨d0, ds2, rfl⟩ : ∃ d0 ds2, ds = d0 :: ds2 := by
    cases ds with
    | nil => exact absurd rfl hne
    | cons a l => exact ⟨a, l, rfl⟩
  have hd0 : isDigitB d0 = true := hd d0 (List.mem_cons_self d0 ds2)
  have hr0 : 48 ≤ d0 ∧ d0 ≤ 57 := by simp [isDigitB] at hd0; omega
  have hsp : isSpaceB d0 = false := digit_not_space d0 hd0
  unfold scanU
  simp only [List.cons_append, List.dropWhile_cons, hsp, Bool.false_eq_true, if_false]
  simp only [signSplit, List.headD_cons, show d0 ≠ 45 by omega, show d0 ≠ 43 by omega, if_false]
  rw [show (d0 :: (ds2 ++ r)) = (d0 :: ds2) ++ r from rfl]
  rw [takeWhile_append_all isDigitB (d0 :: ds2) r hd, htw, List.append_nil]
  rw [if_neg (by simp)]
  simp only [List.drop_left]
  simp

theorem scanNav_fields (instr ds : List Nat) (hin : instr ≠ []) (hilen : instr.length ≤ 63)
    (hic : ∀ c ∈ instr, c ≠ 0 ∧ c ≠ 44)
    (hne : ds ≠ []) (hd : ∀ c ∈ ds, isDigitB c = true) :
    scanNav (instr ++ 44 :: ds) = some (instr, digitsVal ds % 4294967296) := by
  unfold scanNav
  have hp : ∀ c ∈ instr, (!(c == 0 || c == 44)) = true := by
    intro c hc
    obtain ⟨h0, h44⟩ := hic c hc
    simp [h0, h44]
  rw [takeWhile_append_all _ instr (44 :: ds) hp]
  rw [show (44 :: ds).takeWhile (fun c => !(c == 0 || c == 44)) = [] from rfl]
  rw [List.append_nil, take_full_of_le instr 63 hilen]
  rw [if_neg hin]
  simp only [List.drop_left]
  rw [show (ds : List Nat) = ds ++ [] from (List.append_nil ds).symm]
  rw [scanU_digits ds [] hne hd rfl]
  simp

theorem scanStatus_fields (b sg sp : List Nat)
    (hb : b ≠ []) (hbd : ∀ c ∈ b, isDigitB c = true)
    (hsg : sg ≠ []) (hsgd : ∀ c ∈ sg, isDigitB c = true)
    (hsp : sp ≠ []) (hspd : ∀ c ∈ sp, isDigitB c = true) :
    scanStatus (b ++ 44 :: (sg ++ 44 :: sp)) =
      some (digitsVal b % 4294967296, digitsVal sg % 4294967296,
        digitsVal sp % 4294967296) := by
  unfold scanStatus
  rw [scanU_digits b (44 :: (sg ++ 44 :: sp)) hb hbd rfl]
  simp only []
  rw [scanU_digits sg (44 :: sp) hsg hsgd rfl]
  simp only []
  rw [show (sp : List Nat) = sp ++ [] from (List.append_nil sp).symm]
  rw [scanU_digits sp [] hsp hspd rfl]
  simp

/-- Claim C6: feeding `NAV:Turn left,120\n` byte by byte from the initial
state yields a nav record with instruction "Turn left" and distance 120; the
updated flag is true before retrieval, the accessor copies the record out,
and immediately afterwards the flag is false so a second get fails. -/
theorem ble_nav_roundtrip :
    (ble_feed ble_rx_init_state (strBytes "NAV:Turn left,120\n")).current_nav_data.updated
      = true ∧
    (ble_rx_get_nav_data (ble_feed ble_rx_init_state (strBytes "NAV:Turn left,120\n"))).1
      = some ⟨strBytes "Turn left", 120, true⟩ ∧
    ((ble_rx_get_nav_data (ble_feed ble_rx_init_state
      (strBytes "NAV:Turn left,120\n"))).2).current_nav_data.updated = false ∧
    (ble_rx_get_nav_data
      ((ble_rx_get_nav_data (ble_feed ble_rx_init_state
        (strBytes "NAV:Turn left,120\n"))).2)).1 = none :=
  ⟨by decide, by decide, by decide, by decide⟩

theorem ble_accum_feed (bs : List Nat) : ∀ st : BleState,
    (∀ c ∈ bs, 32 ≤ c ∧ c ≤ 126) → st.rx_buffer.length + bs.length ≤ 127 →
    ble_feed st bs = { st with rx_buffer := st.rx_buffer ++ bs } := by
  induction bs with
  | nil =>
    intro st _ _
    simp [ble_feed]
  | cons c rest ih =>
    intro st hbs hlen
    obtain ⟨hlo, hhi⟩ := hbs c (List.mem_cons_self c rest)
    have hc10 : c ≠ 10 := by omega
    have hroom : st.rx_buffer.length < 127 := by
      simp only [List.length_cons] at hlen
      omega
    have hstep : ble_rx_process_char st c = { st with rx_buffer := st.rx_buffer ++ [c] } := by
      simp [ble_rx_process_char, hc10, hroom, hlo, hhi]
    show ble_feed (ble_rx_process_char st c) rest = _
    rw [hstep]
    rw [ih _ (fun x hx => hbs x (List.mem_cons_of_mem c hx)) (by simp at hlen ⊢; omega)]
    simp

/-- Claim C7: a STATUS line with only two numeric fields is dropped
atomically: from any state with an empty accumulator, feeding
`STATUS:100,2\n` leaves the status record (all fields and its updated flag)
and the nav record exactly as they were. -/
theorem ble_status_two_fields (st : BleState) (hbuf : st.rx_buffer = []) :
    (ble_feed st (strBytes "STATUS:100,2\n")).current_status_data = st.current_status_data ∧
    (ble_feed st (strBytes "STATUS:100,2\n")).current_nav_data = st.current_nav_data := by
  have hsplit : strBytes "STATUS:100,2\n" = strBytes "STATUS:100,2" ++ [10] := by decide
  rw [hsplit]
  have hfeed : ble_feed st (strBytes "STATUS:100,2" ++ [10]) =
      ble_rx_process_char (ble_feed st (strBytes "STATUS:100,2")) 10 := by
    simp [ble_feed, List.foldl_append]
  rw [hfeed]
  rw [ble_accum_feed (strBytes "STATUS:100,2") st (by decide) (by rw [hbuf]; decide)]
  rw [hbuf]
  simp only [List.nil_append]
  have hmsg : parse_ble_message { st with rx_buffer := strBytes "STATUS:100,2" }
      (strBytes "STATUS:100,2") = { st with rx_buffer := strBytes "STATUS:100,2" } := by
    unfold parse_ble_message
    rw [if_neg (by decide), if_pos (by decide)]
    rw [show scanStatus ((strBytes "STATUS:100,2").drop 7) = none from by decide]
  simp only [ble_rx_process_char]
  have hlen : (0 < (strBytes "STATUS:100,2").length) = True := eq_true (by decide)
  simp only [hlen, if_true, hmsg]
  exact ⟨trivial, trivial⟩

theorem ble_status_two_fields_witness :
    (ble_rx_init_state.rx_buffer = []) ∧
    (ble_feed ble_rx_init_state
      (strBytes "STATUS:100,2\n")).current_status_data = ble_rx_init_state.current_status_data ∧
    (ble_feed ble_rx_init_state
      (strBytes "STATUS:100,2\n")).current_nav_data = ble_rx_init_state.current_nav_data :=
  ⟨rfl, ble_status_two_fields ble_rx_init_state rfl⟩

/-- Claim C9 counterexample: with the accumulator full (a state reached from
init by 127 printable bytes), the non-printable, non-terminator byte 0x01
does not leave the framer unchanged: it discards the in-progress line and
resets the fill index to zero. -/
theorem ble_nonprintable_full_discards :
    (ble_rx_process_char (ble_feed ble_rx_init_state (List.replicate 127 65)) 1).rx_buffer
      = [] ∧
    (ble_feed ble_rx_init_state (List.replicate 127 65)).rx_buffer = List.replicate 127 65 ∧
    ble_rx_process_char (ble_feed ble_rx_init_state (List.replicate 127 65)) 1 ≠
      ble_feed ble_rx_init_state (List.replicate 127 65) :=
  ⟨by decide, by decide, by decide⟩

/-- Claim C9 (amended): a non-printable byte other than the terminator leaves
the framer state entirely unchanged whenever the accumulator holds fewer
than 127 bytes; when the accumulator is full, any non-terminator byte
(printable or not) discards the in-progress line and resets the index. -/
theorem ble_nonprintable_amended (st : BleState) (c : Nat)
    (hc10 : c ≠ 10) (hcp : ¬(32 ≤ c ∧ c ≤ 126)) :
    (st.rx_buffer.length < 127 → ble_rx_process_char st c = st) ∧
    (127 ≤ st.rx_buffer.length → ble_rx_process_char st c = { st with rx_buffer := [] }) := by
  constructor
  · intro h
    simp [ble_rx_process_char, hc10, h, hcp]
  · intro h
    have h2 : ¬ st.rx_buffer.length < 127 := by omega
    simp [ble_rx_process_char, hc10, h2]

theorem ble_nonprintable_amended_witness :
    ((1 : Nat) ≠ 10 ∧ ¬(32 ≤ (1 : Nat) ∧ (1 : Nat) ≤ 126)) ∧
    (ble_rx_init_state.rx_buffer.length < 127 →
      ble_rx_process_char ble_rx_init_state 1 = ble_rx_init_state) ∧
    (127 ≤ ble_rx_init_state.rx_buffer.length →
      ble_rx_process_char ble_rx_init_state 1 =
        { ble_rx_init_state with rx_buffer := [] }) :=
  ⟨⟨by decide, by decide⟩, ble_nonprintable_amended ble_rx_init_state 1 (by decide) (by decide)⟩

/-- Claim C10: numeric telemetry fields are truncated to the record field
width, not range-checked: a parsed NAV line stores distance mod 2^16 and a
parsed STATUS line stores battery mod 2^16 and signal/speed mod 2^8, and in
each case the line is accepted with the updated flag set. -/
theorem ble_numeric_truncation (st : BleState) (instr ds b sg sp : List Nat)
    (hin : instr ≠ []) (hilen : instr.length ≤ 63)
    (hic : ∀ c ∈ instr, c ≠ 0 ∧ c ≠ 44)
    (hds : ds ≠ []) (hdsd : ∀ c ∈ ds, isDigitB c = true)
    (hb : b ≠ []) (hbd : ∀ c ∈ b, isDigitB c = true)
    (hsg : sg ≠ []) (hsgd : ∀ c ∈ sg, isDigitB c = true)
    (hsp : sp ≠ []) (hspd : ∀ c ∈ sp, isDigitB c = true) :
    (parse_ble_message st (strBytes "NAV:" ++ (instr ++ 44 :: ds))).current_nav_data =
      ⟨instr, digitsVal ds % 65536, true⟩ ∧
    (parse_ble_message st
        (strBytes "STATUS:" ++ (b ++ 44 :: (sg ++ 44 :: sp)))).current_status_data =
      ⟨digitsVal b % 65536, digitsVal sg % 256, digitsVal sp % 256, true⟩ := by
  constructor
  · unfold parse_ble_message
    rw [show (4 : Nat) = (strBytes "NAV:").length from rfl, List.take_left, if_pos rfl]
    rw [show (strBytes "NAV:").length = 4 from rfl]
    rw [show (4 : Nat) = (strBytes "NAV:").length from rfl, List.drop_left]
    rw [scanNav_fields instr ds hin hilen hic hds hdsd]
    simp only []
    rw [Nat.mod_mod_of_dvd _ (by norm_num)]
  · unfold parse_ble_message
    rw [show (4 : Nat) = (strBytes "NAV:").length from rfl]
    rw [if_neg ?hneq]
    case hneq =>
      intro hcontra
      rw [show (strBytes "NAV:").length = 4 from rfl] at hcontra
      rw [List.take_append_eq_append_take] at hcontra
      rw [show (strBytes "STATUS:").take 4 = strBytes "STAT" from by decide] at hcontra
      rw [show (4 - (strBytes "STATUS:").length) = 0 from by decide, List.take_zero,
        List.append_nil] at hcontra
      exact absurd hcontra (by decide)
    rw [show (7 : Nat) = (strBytes "STATUS:").length from rfl, List.take_left, if_pos rfl]
    rw [show (strBytes "STATUS:").length = 7 from rfl]
    rw [show (7 : Nat) = (strBytes "STATUS:").length from rfl, List.drop_left]
    rw [scanStatus_fields b sg sp hb hbd hsg hsgd hsp hspd]
    simp only []
    rw [Nat.mod_mod_of_dvd _ (by norm_num : (65536 : Nat) ∣ 4294967296),
      Nat.mod_mod_of_dvd _ (by norm_num : (256 : Nat) ∣ 4294967296),
      Nat.mod_mod_of_dvd _ (by norm_num : (256 : Nat) ∣ 4294967296)]

theorem ble_numeric_truncation_witness :
    ((strBytes "Go" ≠ [] ∧ (strBytes "Go").length ≤ 63 ∧
        (∀ c ∈ strBytes "Go", c ≠ 0 ∧ c ≠ 44)) ∧
      (strBytes "70000" ≠ [] ∧ (∀ c ∈ strBytes "70000", isDigitB c = true)) ∧
      (strBytes "300" ≠ [] ∧ (∀ c ∈ strBytes "300", isDigitB c = true)) ∧
      (strBytes "260" ≠ [] ∧ (∀ c ∈ strBytes "260", isDigitB c = true))) ∧
    (parse_ble_message ble_rx_init_state
        (strBytes "NAV:" ++ (strBytes "Go" ++ 44 :: strBytes "70000"))).current_nav_data =
      ⟨strBytes "Go", digitsVal (strBytes "70000") % 65536, true⟩ ∧
    (parse_ble_message ble_rx_init_state
        (strBytes "STATUS:" ++ (strBytes "70000" ++ 44 ::
          (strBytes "300" ++ 44 :: strBytes "260")))).current_status_data =
      ⟨digitsVal (strBytes "70000") % 65536, digitsVal (strBytes "300") % 256,
        digitsVal (strBytes "260") % 256, true⟩ :=
  ⟨⟨⟨by decide, by decide, by decide⟩, ⟨by decide, by decide⟩, ⟨by decide, by decide⟩,
      ⟨by decide, by decide⟩⟩,
    ble_numeric_truncation ble_rx_init_state (strBytes "Go") (strBytes "70000")
      (strBytes "70000") (strBytes "300") (strBytes "260")
      (by decide) (by decide) (by decide) (by decide) (by decide) (by decide) (by decide)
      (by decide) (by decide) (by decide) (by decide)⟩
